import Mathlib

/-!
# Verification of the Dubai transit offline data model and journey planner

This file gives a shallow embedding of the core of the `bus-dubiai`
repository: the offline pattern builder (`backend/scripts/build-offline-db.js`),
the journey planner and stop search of the HTTP layer
(`backend/routes/search.routes.js`), the bus listing
(`backend/routes/bus.routes.js`) and the mobile/offline queries
(`frontend/dubaibus/src/database/db.ts`).

SQL queries are modelled as list comprehensions over the table rows in stored
order: a `JOIN ... ON c` is a nested traversal filtered by `c`,
`SELECT DISTINCT` is duplicate removal, `ORDER BY` is a stable sort by the
ordering key (SQLite leaves tie order unspecified; a stable sort is one
deterministic refinement, and all theorems below are insensitive to tie
order), and `LIMIT n` is `List.take n`.  Latitudes, longitudes and derived
distances are modelled as exact rationals; JavaScript floating point is the
one approximation not captured, so the nearby-stops model takes the computed
cosine of the query latitude as an explicit rational parameter.
-/

namespace BusDubai

/-! ## Stable insertion sort by a boolean strict-less comparator

Models SQLite `ORDER BY` (and JavaScript's stable `Array.prototype.sort`).
The element being inserted is placed after every already-placed element that
is strictly smaller, hence before equal elements that followed it: a stable
sort.
-/

def insertLt (lt : α → α → Bool) (a : α) : List α → List α
  | [] => [a]
  | b :: l => if lt b a then b :: insertLt lt a l else a :: b :: l

def sortLt (lt : α → α → Bool) : List α → List α
  | [] => []
  | a :: l => insertLt lt a (sortLt lt l)

theorem insertLt_perm (lt : α → α → Bool) (a : α) (l : List α) :
    (insertLt lt a l).Perm (a :: l) := by
  induction l with
  | nil => simp [insertLt]
  | cons b t ih =>
    simp only [insertLt]
    split
    · exact ((ih.cons b).trans (List.Perm.swap a b t))
    · exact List.Perm.refl _

theorem sortLt_perm (lt : α → α → Bool) (l : List α) :
    (sortLt lt l).Perm l := by
  induction l with
  | nil => simp [sortLt]
  | cons a t ih => exact (insertLt_perm lt a (sortLt lt t)).trans (ih.cons a)

theorem mem_sortLt (lt : α → α → Bool) (l : List α) (x : α) :
    x ∈ sortLt lt l ↔ x ∈ l :=
  (sortLt_perm lt l).mem_iff

theorem length_sortLt (lt : α → α → Bool) (l : List α) :
    (sortLt lt l).length = l.length :=
  (sortLt_perm lt l).length_eq

theorem insertLt_pairwise (lt : α → α → Bool)
    (hasym : ∀ x y, lt x y = true → lt y x = false)
    (hntrans : ∀ x y z, lt y x = false → lt z y = false → lt z x = false)
    (a : α) (l : List α) (hl : l.Pairwise (fun x y => lt y x = false)) :
    (insertLt lt a l).Pairwise (fun x y => lt y x = false) := by
  induction l with
  | nil => simp [insertLt]
  | cons b t ih =>
    rcases hl with _ | ⟨hb, ht⟩
    simp only [insertLt]
    split
    · rename_i hba
      refine List.Pairwise.cons ?_ (ih ht)
      intro y hy
      rcases List.mem_cons.mp ((insertLt_perm lt a t).mem_iff.mp hy) with rfl | hy
      · exact hasym _ _ hba
      · exact hb y hy
    · rename_i hba
      have hba' : lt b a = false := by
        cases h : lt b a with
        | false => rfl
        | true => exact absurd h hba
      refine List.Pairwise.cons ?_ (List.Pairwise.cons hb ht)
      intro y hy
      rcases List.mem_cons.mp hy with rfl | hy
      · exact hba'
      · exact hntrans _ _ _ hba' (hb y hy)

theorem sortLt_pairwise (lt : α → α → Bool)
    (hasym : ∀ x y, lt x y = true → lt y x = false)
    (hntrans : ∀ x y z, lt y x = false → lt z y = false → lt z x = false)
    (l : List α) :
    (sortLt lt l).Pairwise (fun x y => lt y x = false) := by
  induction l with
  | nil => simp [sortLt]
  | cons a t ih => exact insertLt_pairwise lt hasym hntrans a _ ih

/-- Sorting by a key into a linear order: the result is pairwise
nondecreasing in the key. -/
theorem sortLt_key_pairwise {β : Type*} [LinearOrder β] (k : α → β) (l : List α) :
    (sortLt (fun a b => decide (k a < k b)) l).Pairwise (fun x y => k x ≤ k y) := by
  have h := sortLt_pairwise (fun a b => decide (k a < k b))
    (fun x y hxy => by
      simp only [decide_eq_true_eq] at hxy
      simpa using not_lt_of_lt hxy)
    (fun x y z hyx hzy => by
      simp only [decide_eq_false_iff_not] at hyx hzy ⊢
      exact fun h => hyx (lt_of_le_of_lt (le_of_not_lt hzy) h))
    l
  exact h.imp (fun hxy => by
    simp only [decide_eq_false_iff_not] at hxy
    exact le_of_not_lt hxy)

/-! ## Duplicate removal keeping first occurrences

Models `SELECT DISTINCT` and `INSERT OR IGNORE` (insert-if-absent)
semantics. -/

def dedupFirstAux [DecidableEq α] (seen : List α) : List α → List α
  | [] => []
  | a :: l => if a ∈ seen then dedupFirstAux seen l
              else a :: dedupFirstAux (a :: seen) l

def dedupFirst [DecidableEq α] (l : List α) : List α :=
  dedupFirstAux [] l

theorem mem_dedupFirstAux [DecidableEq α] (seen l : List α) (x : α) :
    x ∈ dedupFirstAux seen l ↔ x ∈ l ∧ x ∉ seen := by
  induction l generalizing seen with
  | nil => simp [dedupFirstAux]
  | cons a t ih =>
    simp only [dedupFirstAux]
    split
    · rename_i ha
      rw [ih]
      constructor
      · rintro ⟨hx, hns⟩; exact ⟨List.mem_cons_of_mem a hx, hns⟩
      · rintro ⟨hx, hns⟩
        rcases List.mem_cons.mp hx with rfl | hx
        · exact absurd ha hns
        · exact ⟨hx, hns⟩
    · rename_i ha
      simp only [List.mem_cons, ih]
      constructor
      · rintro (rfl | ⟨hx, hns⟩)
        · exact ⟨Or.inl rfl, ha⟩
        · exact ⟨Or.inr hx, fun h => hns (Or.inr h)⟩
      · rintro ⟨rfl | hx, hns⟩
        · exact Or.inl rfl
        · by_cases hxa : x = a
          · exact Or.inl hxa
          · exact Or.inr ⟨hx, fun h => h.elim hxa hns⟩

theorem mem_dedupFirst [DecidableEq α] (l : List α) (x : α) :
    x ∈ dedupFirst l ↔ x ∈ l := by
  rw [dedupFirst, mem_dedupFirstAux]; simp

theorem nodup_dedupFirstAux [DecidableEq α] (seen l : List α) :
    (dedupFirstAux seen l).Nodup := by
  induction l generalizing seen with
  | nil => simp [dedupFirstAux]
  | cons a t ih =>
    simp only [dedupFirstAux]
    split
    · exact ih seen
    · refine List.Nodup.cons ?_ (ih (a :: seen))
      intro hmem
      exact ((mem_dedupFirstAux (a :: seen) t a).mp hmem).2 (List.mem_cons_self a seen)

theorem nodup_dedupFirst [DecidableEq α] (l : List α) :
    (dedupFirst l).Nodup :=
  nodup_dedupFirstAux [] l

theorem length_dedupFirstAux_le [DecidableEq α] (seen l : List α) :
    (dedupFirstAux seen l).length ≤ l.length := by
  induction l generalizing seen with
  | nil => simp [dedupFirstAux]
  | cons a t ih =>
    simp only [dedupFirstAux]
    split
    · exact le_trans (ih seen) (Nat.le_succ _)
    · simpa using ih (a :: seen)

theorem length_dedupFirst_le [DecidableEq α] (l : List α) :
    (dedupFirst l).length ≤ l.length :=
  length_dedupFirstAux_le [] l

/-! ## Data model

The five tables created by `build-offline-db.js` (`routes`, `stops`,
`route_patterns`, `pattern_stops`, `stop_routes`), each modelled as a list of
rows in stored order.  `route_type` is the GTFS numeric type
(`METRO = 1`, `BUS = 3`). -/

structure RouteRec where
  route_id : String
  route_short_name : String
  route_long_name : String
  route_type : Nat
  route_color : String
  deriving DecidableEq, Repr

structure StopRec where
  stop_id : String
  stop_name : String
  stop_lat : ℚ
  stop_lon : ℚ
  location_type : Nat
  deriving DecidableEq, Repr

structure PatternRec where
  pattern_id : Nat
  route_id : String
  direction_id : Nat
  headsign : String
  first_stop_id : String
  last_stop_id : String
  total_stops : Nat
  deriving DecidableEq, Repr

structure PatternStopRow where
  pattern_id : Nat
  stop_id : String
  stop_sequence : Nat
  deriving DecidableEq, Repr

structure StopRouteRow where
  stop_id : String
  route_id : String
  direction_id : Nat
  deriving DecidableEq, Repr

structure DB where
  routes : List RouteRec
  stops : List StopRec
  patterns : List PatternRec
  patternStops : List PatternStopRow
  stopRoutes : List StopRouteRow
  deriving DecidableEq, Repr

/-! ## Pattern builder (`build-offline-db.js`, STEP 3-5)

Input records, as parsed from `trips.txt` and `stop_times.txt`
(`direction_id` and `stop_sequence` already coerced to numbers, as the
script does with `parseInt(...) || 0`). -/

structure Trip where
  trip_id : String
  route_id : String
  direction_id : Nat
  headsign : String
  deriving DecidableEq, Repr

structure StopTime where
  trip_id : String
  stop_id : String
  sequence : Nat
  deriving DecidableEq, Repr

structure BuildOut where
  patterns : List PatternRec
  patternStops : List PatternStopRow
  stopRoutes : List StopRouteRow
  deriving DecidableEq, Repr

/-- STEP 3: the `patternTrips` map; keep the first trip encountered for each
`(route_id, direction_id)` key, in insertion order (JavaScript `Map`
iteration order). -/
def repTripsAux (seen : List (String × Nat)) : List Trip → List Trip
  | [] => []
  | t :: ts =>
    if (t.route_id, t.direction_id) ∈ seen then repTripsAux seen ts
    else t :: repTripsAux ((t.route_id, t.direction_id) :: seen) ts

def repTrips (trips : List Trip) : List Trip := repTripsAux [] trips

/-- STEP 4: the `tripStops` map entry for one trip: its stop-time rows in
file order. -/
def stopsForTrip (sts : List StopTime) (tid : String) : List StopTime :=
  sts.filter (fun st => st.trip_id == tid)

/-- `stops.sort((a, b) => a.sequence - b.sequence)`: stable ascending sort by
sequence. -/
def sortStops (l : List StopTime) : List StopTime :=
  sortLt (fun a b => decide (a.sequence < b.sequence)) l

/-- STEP 5 grouping: one entry per representative trip whose stop list is
nonempty (groups with zero stop-time rows are skipped), carrying the
sequence-sorted stop list. -/
def buildGroups (trips : List Trip) (sts : List StopTime) :
    List (Trip × List StopTime) :=
  (repTrips trips).filterMap (fun t =>
    let l := sortStops (stopsForTrip sts t.trip_id)
    if l.isEmpty then none else some (t, l))

/-- The `UNIQUE(pattern_id, stop_sequence)` constraint of `pattern_stops`:
duplicate sequence values within one group make the insert throw, aborting
the whole `buildPatterns` transaction. -/
def seqNodup (l : List StopTime) : Bool :=
  (l.map (fun st => st.sequence)).Nodup

/-- Emit `route_patterns` and `pattern_stops` rows for the surviving groups;
`pattern_id` is assigned by SQLite `AUTOINCREMENT`, i.e. consecutively
starting from `n`. -/
def emitPatterns (n : Nat) : List (Trip × List StopTime) →
    List PatternRec × List PatternStopRow
  | [] => ([], [])
  | (t, l) :: gs =>
    (⟨n, t.route_id, t.direction_id, t.headsign,
      ((l.head?.map (fun st => st.stop_id)).getD ""),
      ((l.getLast?.map (fun st => st.stop_id)).getD ""),
      l.length⟩ :: (emitPatterns (n + 1) gs).1,
     l.map (fun st => (⟨n, st.stop_id, st.sequence⟩ : PatternStopRow))
       ++ (emitPatterns (n + 1) gs).2)

/-- The `stop_routes` tuples in the order `insertStopRoute` is invoked
(per group, per sorted stop). -/
def srTuples (gs : List (Trip × List StopTime)) : List StopRouteRow :=
  gs.flatMap (fun g =>
    g.2.map (fun st => (⟨st.stop_id, g.1.route_id, g.1.direction_id⟩ : StopRouteRow)))

/-- The whole `buildPatterns` transaction: `none` models the rollback that a
`UNIQUE(pattern_id, stop_sequence)` violation causes (nothing is emitted).
`stop_routes` uses `INSERT OR IGNORE`: duplicates collapse to the first
occurrence. -/
def buildPatterns (trips : List Trip) (sts : List StopTime) : Option BuildOut :=
  let gs := buildGroups trips sts
  if gs.all (fun g => seqNodup g.2) then
    some ⟨(emitPatterns 1 gs).1, (emitPatterns 1 gs).2, dedupFirst (srTuples gs)⟩
  else none

/-! ### Builder lemmas -/

theorem emitPatterns_fst_ids (n : Nat) (gs : List (Trip × List StopTime)) :
    ∀ p ∈ (emitPatterns n gs).1, n ≤ p.pattern_id := by
  induction gs generalizing n with
  | nil => simp [emitPatterns]
  | cons g gs ih =>
    obtain ⟨t, l⟩ := g
    intro p hp
    rcases List.mem_cons.mp hp with rfl | hp
    · exact le_refl n
    · exact le_trans (Nat.le_succ n) (ih (n + 1) p hp)

theorem emitPatterns_snd_ids (n : Nat) (gs : List (Trip × List StopTime)) :
    ∀ r ∈ (emitPatterns n gs).2, n ≤ r.pattern_id := by
  induction gs generalizing n with
  | nil => simp [emitPatterns]
  | cons g gs ih =>
    obtain ⟨t, l⟩ := g
    intro r hr
    rcases List.mem_append.mp hr with hr | hr
    · obtain ⟨st, _, rfl⟩ := List.mem_map.mp hr
      exact le_refl n
    · exact le_trans (Nat.le_succ n) (ih (n + 1) r hr)

/-- Every emitted pattern comes from one group, and the `pattern_stops` rows
with its id are exactly that group's sorted stop list turned into rows. -/
theorem emitPatterns_spec (n : Nat) (gs : List (Trip × List StopTime))
    (p : PatternRec) (hp : p ∈ (emitPatterns n gs).1) :
    ∃ g ∈ gs,
      p = ⟨p.pattern_id, g.1.route_id, g.1.direction_id, g.1.headsign,
        ((g.2.head?.map (fun st => st.stop_id)).getD ""),
        ((g.2.getLast?.map (fun st => st.stop_id)).getD ""), g.2.length⟩ ∧
      (emitPatterns n gs).2.filter (fun r => r.pattern_id == p.pattern_id)
        = g.2.map (fun st => (⟨p.pattern_id, st.stop_id, st.sequence⟩ : PatternStopRow)) := by
  induction gs generalizing n with
  | nil => simp [emitPatterns] at hp
  | cons g gs ih =>
    obtain ⟨t, l⟩ := g
    simp only [emitPatterns] at hp ⊢
    rcases List.mem_cons.mp hp with rfl | hp
    · refine ⟨(t, l), List.mem_cons_self _ _, rfl, ?_⟩
      rw [List.filter_append]
      have h1 : (l.map (fun st => (⟨n, st.stop_id, st.sequence⟩ : PatternStopRow))).filter
          (fun r => r.pattern_id == n) =
          l.map (fun st => (⟨n, st.stop_id, st.sequence⟩ : PatternStopRow)) := by
        apply List.filter_eq_self.mpr
        intro r hr
        obtain ⟨st, _, rfl⟩ := List.mem_map.mp hr
        simp
      have h2 : (emitPatterns (n + 1) gs).2.filter (fun r => r.pattern_id == n) = [] := by
        apply List.filter_eq_nil_iff.mpr
        intro r hr
        have := emitPatterns_snd_ids (n + 1) gs r hr
        simp only [beq_iff_eq]
        omega
      simp [h1, h2]
    · obtain ⟨g, hg, hpe, hfil⟩ := ih (n + 1) hp
      have hid : n + 1 ≤ p.pattern_id := emitPatterns_fst_ids (n + 1) gs p hp
      refine ⟨g, List.mem_cons_of_mem _ hg, hpe, ?_⟩
      rw [List.filter_append]
      have h1 : (l.map (fun st => (⟨n, st.stop_id, st.sequence⟩ : PatternStopRow))).filter
          (fun r => r.pattern_id == p.pattern_id) = [] := by
        apply List.filter_eq_nil_iff.mpr
        intro r hr
        obtain ⟨st, _, rfl⟩ := List.mem_map.mp hr
        simp only [beq_iff_eq]
        omega
      simpa [h1] using hfil

/-- Every group yields an emitted pattern whose rows cover the group's
stops. -/
theorem emitPatterns_covers (n : Nat) (gs : List (Trip × List StopTime))
    (g : Trip × List StopTime) (hg : g ∈ gs) :
    ∃ p ∈ (emitPatterns n gs).1,
      p.route_id = g.1.route_id ∧ p.direction_id = g.1.direction_id ∧
      ∀ st ∈ g.2,
        (⟨p.pattern_id, st.stop_id, st.sequence⟩ : PatternStopRow) ∈ (emitPatterns n gs).2 := by
  induction gs generalizing n with
  | nil => simp at hg
  | cons g' gs ih =>
    obtain ⟨t, l⟩ := g'
    rcases List.mem_cons.mp hg with rfl | hg
    · refine ⟨_, List.mem_cons_self _ _, rfl, rfl, ?_⟩
      intro st hst
      exact List.mem_append_left _ (List.mem_map.mpr ⟨st, hst, rfl⟩)
    · obtain ⟨p, hp, h1, h2, h3⟩ := ih (n + 1) hg
      exact ⟨p, List.mem_cons_of_mem _ hp, h1, h2,
        fun st hst => List.mem_append_right _ (h3 st hst)⟩

theorem buildGroups_mem (trips : List Trip) (sts : List StopTime)
    (g : Trip × List StopTime) (hg : g ∈ buildGroups trips sts) :
    g.2 = sortStops (stopsForTrip sts g.1.trip_id) ∧ g.2 ≠ [] := by
  obtain ⟨t, ht, hf⟩ := List.mem_filterMap.mp hg
  simp only at hf
  split at hf
  · simp at hf
  · rename_i hne
    have hfe := Option.some.inj hf
    constructor
    · rw [← hfe]
    · rw [← hfe]
      simpa [List.isEmpty_iff] using hne

theorem srTuples_mem (gs : List (Trip × List StopTime)) (x : StopRouteRow) :
    x ∈ srTuples gs ↔
      ∃ g ∈ gs, g.1.route_id = x.route_id ∧ g.1.direction_id = x.direction_id ∧
        ∃ st ∈ g.2, st.stop_id = x.stop_id := by
  simp only [srTuples, List.mem_flatMap, List.mem_map]
  constructor
  · rintro ⟨g, hg, st, hst, rfl⟩
    exact ⟨g, hg, rfl, rfl, st, hst, rfl⟩
  · rintro ⟨g, hg, h1, h2, st, hst, h3⟩
    refine ⟨g, hg, st, hst, ?_⟩
    cases x
    simp_all

/-- Unfolding of a successful build. -/
theorem buildPatterns_eq (trips : List Trip) (sts : List StopTime) (out : BuildOut)
    (h : buildPatterns trips sts = some out) :
    out.patterns = (emitPatterns 1 (buildGroups trips sts)).1 ∧
    out.patternStops = (emitPatterns 1 (buildGroups trips sts)).2 ∧
    out.stopRoutes = dedupFirst (srTuples (buildGroups trips sts)) ∧
    ∀ g ∈ buildGroups trips sts, seqNodup g.2 = true := by
  simp only [buildPatterns] at h
  split at h
  · rename_i hall
    obtain rfl := Option.some.inj h
    exact ⟨rfl, rfl, rfl, fun g hg => List.all_eq_true.mp hall g hg⟩
  · simp at h

/-- **C4.** Every pattern emitted by a completed build has strictly
increasing `stop_sequence` values, exactly `total_stops ≥ 1` rows, and
`first_stop_id`/`last_stop_id` equal to the ends of its sorted stop list. -/
theorem build_pattern_invariant (trips : List Trip) (sts : List StopTime)
    (out : BuildOut) (h : buildPatterns trips sts = some out)
    (p : PatternRec) (hp : p ∈ out.patterns) :
    ((out.patternStops.filter (fun r => r.pattern_id == p.pattern_id)).map
        (fun r => r.stop_sequence)).Pairwise (· < ·) ∧
    (out.patternStops.filter (fun r => r.pattern_id == p.pattern_id)).length
        = p.total_stops ∧
    1 ≤ p.total_stops ∧
    ((out.patternStops.filter (fun r => r.pattern_id == p.pattern_id)).head?.map
        (fun r => r.stop_id)) = some p.first_stop_id ∧
    ((out.patternStops.filter (fun r => r.pattern_id == p.pattern_id)).getLast?.map
        (fun r => r.stop_id)) = some p.last_stop_id := by
  obtain ⟨hps, hrows, _, hnd⟩ := buildPatterns_eq trips sts out h
  rw [hps] at hp
  obtain ⟨g, hg, hpe, hfil⟩ := emitPatterns_spec 1 (buildGroups trips sts) p hp
  obtain ⟨hsorted, hne⟩ := buildGroups_mem trips sts g hg
  obtain ⟨st0, l', hl⟩ := List.exists_cons_of_ne_nil hne
  rw [hrows, hfil]
  have hle : (g.2.map (fun st => st.sequence)).Pairwise (· ≤ ·) := by
    rw [hsorted]
    exact List.pairwise_map.mpr
      (sortLt_key_pairwise (fun st => st.sequence) (stopsForTrip sts g.1.trip_id))
  have hnodup : (g.2.map (fun st => st.sequence)).Nodup := by
    have := hnd g hg
    simpa [seqNodup] using this
  refine ⟨?_, ?_, ?_, ?_, ?_⟩
  · have : (g.2.map (fun st => st.sequence)).Pairwise (· < ·) :=
      (hle.and hnodup).imp (fun hab => lt_of_le_of_ne hab.1 hab.2)
    simpa [List.map_map, Function.comp] using this
  · rw [List.length_map]
    conv_rhs => rw [hpe]
  · rw [hpe]
    simp [hl]
  · rw [List.head?_map, hl]
    conv_rhs => rw [hpe]
    simp [hl]
  · rw [List.getLast?_map]
    conv_rhs => rw [hpe]
    have hlast : (st0 :: l').getLast? = some ((st0 :: l').getLast (by simp)) :=
      List.getLast?_eq_getLast _ _
    simp [hl, hlast]

/-- **C5.** After a completed build, the `stop_routes` index is duplicate-free
and contains `(s, r, d)` exactly when some emitted pattern for `(r, d)` has a
`pattern_stops` row for stop `s`. -/
theorem build_stop_route_index (trips : List Trip) (sts : List StopTime)
    (out : BuildOut) (h : buildPatterns trips sts = some out) :
    out.stopRoutes.Nodup ∧
    ∀ s r d, (⟨s, r, d⟩ : StopRouteRow) ∈ out.stopRoutes ↔
      ∃ p ∈ out.patterns, p.route_id = r ∧ p.direction_id = d ∧
        ∃ row ∈ out.patternStops, row.pattern_id = p.pattern_id ∧ row.stop_id = s := by
  obtain ⟨hps, hrows, hsr, _⟩ := buildPatterns_eq trips sts out h
  rw [hps, hrows, hsr]
  refine ⟨nodup_dedupFirst _, fun s r d => ?_⟩
  rw [mem_dedupFirst, srTuples_mem]
  constructor
  · rintro ⟨g, hg, h1, h2, st, hst, h3⟩
    obtain ⟨p, hp, hr1, hr2, hr3⟩ := emitPatterns_covers 1 (buildGroups trips sts) g hg
    exact ⟨p, hp, by rw [hr1, h1], by rw [hr2, h2],
      ⟨p.pattern_id, st.stop_id, st.sequence⟩, hr3 st hst, rfl, h3⟩
  · rintro ⟨p, hp, hr, hd, row, hrow, hpid, hsid⟩
    obtain ⟨g, hg, hpe, hfil⟩ := emitPatterns_spec 1 (buildGroups trips sts) p hp
    have hrow' : row ∈ (emitPatterns 1 (buildGroups trips sts)).2.filter
        (fun x => x.pattern_id == p.pattern_id) :=
      List.mem_filter.mpr ⟨hrow, by simp [hpid]⟩
    rw [hfil] at hrow'
    obtain ⟨st, hst, hre⟩ := List.mem_map.mp hrow'
    have hroute : g.1.route_id = r := by
      have : p.route_id = g.1.route_id := by rw [hpe]
      rw [← hr, this]
    have hdir : g.1.direction_id = d := by
      have : p.direction_id = g.1.direction_id := by rw [hpe]
      rw [← hd, this]
    refine ⟨g, hg, hroute, hdir, st, hst, ?_⟩
    rw [← hsid, ← hre]

/-! ## Direct-route search

Model of `findDirectRoutes` in `frontend/dubaibus/src/database/db.ts`: the
SQL joins `pattern_stops ps1` / `ps2` (same pattern), `route_patterns rp`
and `routes r`, keeps rows with `ps1.stop_id = from`, `ps2.stop_id = to`
and `ps1.stop_sequence < ps2.stop_sequence`, removes duplicates
(`SELECT DISTINCT`), orders by `(ps2.stop_sequence - ps1.stop_sequence)`
ascending and keeps the first 10 (`LIMIT 10`).  `stops_between` in the
mapped result is `to_seq - from_seq`. -/

structure DirectRow where
  route_id : String
  route_short_name : String
  route_type : Nat
  route_color : String
  pattern_id : Nat
  direction_id : Nat
  headsign : String
  from_seq : Nat
  to_seq : Nat
  deriving DecidableEq, Repr

def directCandidates (db : DB) (f t : String) : List DirectRow :=
  dedupFirst ((db.patternStops.filter (fun ps1 => ps1.stop_id == f)).flatMap (fun ps1 =>
    (db.patternStops.filter (fun ps2 =>
        ps2.pattern_id == ps1.pattern_id &&
          (ps2.stop_id == t && decide (ps1.stop_sequence < ps2.stop_sequence)))).flatMap
      (fun ps2 =>
        (db.patterns.filter (fun rp => rp.pattern_id == ps1.pattern_id)).flatMap (fun rp =>
          (db.routes.filter (fun r => r.route_id == rp.route_id)).map (fun r =>
            (⟨r.route_id, r.route_short_name, r.route_type, r.route_color,
              ps1.pattern_id, rp.direction_id, rp.headsign,
              ps1.stop_sequence, ps2.stop_sequence⟩ : DirectRow))))))

/-- The SQL result set of the direct-route query: sorted by sequence
difference, capped at 10 rows. -/
def findDirectRows (db : DB) (f t : String) : List DirectRow :=
  (sortLt (fun a b => decide (a.to_seq - a.from_seq < b.to_seq - b.from_seq))
    (directCandidates db f t)).take 10

/-- The `stops_between` field of the mapped `FoundRoute`
(`stops_between: r.to_seq - r.from_seq`). -/
def stopsBetween (e : DirectRow) : Nat := e.to_seq - e.from_seq

theorem mem_directCandidates (db : DB) (f t : String) (x : DirectRow) :
    x ∈ directCandidates db f t ↔
      ∃ ps1 ∈ db.patternStops, ∃ ps2 ∈ db.patternStops, ∃ rp ∈ db.patterns,
        ∃ r ∈ db.routes,
          ps1.stop_id = f ∧ ps2.stop_id = t ∧ ps2.pattern_id = ps1.pattern_id ∧
          ps1.stop_sequence < ps2.stop_sequence ∧ rp.pattern_id = ps1.pattern_id ∧
          r.route_id = rp.route_id ∧
          x = ⟨r.route_id, r.route_short_name, r.route_type, r.route_color,
               ps1.pattern_id, rp.direction_id, rp.headsign,
               ps1.stop_sequence, ps2.stop_sequence⟩ := by
  simp only [directCandidates, mem_dedupFirst, List.mem_flatMap, List.mem_filter,
    List.mem_map, Bool.and_eq_true, beq_iff_eq, decide_eq_true_eq]
  constructor
  · rintro ⟨ps1, ⟨hp1, hf⟩, ps2, ⟨hp2, hpid, ht, hlt⟩, rp, ⟨hrp, hrpid⟩, r, ⟨hr, hrid⟩, rfl⟩
    exact ⟨ps1, hp1, ps2, hp2, rp, hrp, r, hr, hf, ht, hpid, hlt, hrpid, hrid, rfl⟩
  · rintro ⟨ps1, hp1, ps2, hp2, rp, hrp, r, hr, hf, ht, hpid, hlt, hrpid, hrid, rfl⟩
    exact ⟨ps1, ⟨hp1, hf⟩, ps2, ⟨hp2, hpid, ht, hlt⟩, rp, ⟨hrp, hrpid⟩, r, ⟨hr, hrid⟩, rfl⟩

theorem mem_findDirectRows (db : DB) (f t : String) (e : DirectRow)
    (he : e ∈ findDirectRows db f t) : e ∈ directCandidates db f t := by
  have h1 : e ∈ sortLt (fun a b => decide (a.to_seq - a.from_seq < b.to_seq - b.from_seq))
      (directCandidates db f t) := List.take_subset _ _ he
  exact (mem_sortLt _ _ _).mp h1

/-- **C1 (amended).** If pattern `P` carries stop `A` at sequence `sa` and
stop `B` at sequence `sb` with `sa < sb`, `P`'s route is in the routes table,
and at most 10 candidate rows qualify for the `(A, B)` search, then the
direct search returns an entry for `P` whose `stops_between` is `sb - sa`. -/
theorem direct_route_correctness (db : DB) (P : PatternRec) (A B : String)
    (r : RouteRec) (sa sb : Nat)
    (hP : P ∈ db.patterns)
    (hr : r ∈ db.routes) (hrid : r.route_id = P.route_id)
    (hA : (⟨P.pattern_id, A, sa⟩ : PatternStopRow) ∈ db.patternStops)
    (hB : (⟨P.pattern_id, B, sb⟩ : PatternStopRow) ∈ db.patternStops)
    (hlt : sa < sb)
    (hcap : (directCandidates db A B).length ≤ 10) :
    ∃ e ∈ findDirectRows db A B, e.pattern_id = P.pattern_id ∧
      stopsBetween e = sb - sa := by
  have hx : (⟨r.route_id, r.route_short_name, r.route_type, r.route_color,
      P.pattern_id, P.direction_id, P.headsign, sa, sb⟩ : DirectRow)
      ∈ directCandidates db A B := by
    rw [mem_directCandidates]
    exact ⟨⟨P.pattern_id, A, sa⟩, hA, ⟨P.pattern_id, B, sb⟩, hB, P, hP, r, hr,
      rfl, rfl, rfl, hlt, rfl, hrid, rfl⟩
  have hsortlen : (sortLt (fun a b =>
      decide (a.to_seq - a.from_seq < b.to_seq - b.from_seq))
      (directCandidates db A B)).length ≤ 10 := by
    rw [length_sortLt]; exact hcap
  have htake : findDirectRows db A B = sortLt (fun a b =>
      decide (a.to_seq - a.from_seq < b.to_seq - b.from_seq))
      (directCandidates db A B) := List.take_of_length_le hsortlen
  refine ⟨⟨r.route_id, r.route_short_name, r.route_type, r.route_color,
    P.pattern_id, P.direction_id, P.headsign, sa, sb⟩, ?_, rfl, rfl⟩
  rw [htake, mem_sortLt]
  exact hx

/-- Witness database for C1's counterexample: ten patterns carry `A → B`
with sequence difference 1, an eleventh pattern carries them with
difference 2 and is pushed past the `LIMIT 10` cap. -/
def exDB1 : DB :=
  { routes := (List.range 11).map (fun i =>
      ⟨"R" ++ toString (i + 1), toString (i + 1), "", 3, ""⟩),
    stops := [⟨"A", "Stop A", 0, 0, 0⟩, ⟨"B", "Stop B", 0, 0, 0⟩],
    patterns := (List.range 11).map (fun i =>
      ⟨i + 1, "R" ++ toString (i + 1), 0, "", "A", "B", 2⟩),
    patternStops := (List.range 11).flatMap (fun i =>
      [⟨i + 1, "A", 1⟩, ⟨i + 1, "B", if i = 10 then 3 else 2⟩]),
    stopRoutes := [] }

/-- **C1 counterexample.** Pattern 11 of `exDB1` contains `A` at sequence 1
and `B` at sequence 3, yet the `(A, B)` direct search returns no entry for
it: the `LIMIT 10` cap drops it. -/
theorem direct_route_correctness_counterexample :
    (⟨11, "R11", 0, "", "A", "B", 2⟩ : PatternRec) ∈ exDB1.patterns ∧
    (⟨11, "A", 1⟩ : PatternStopRow) ∈ exDB1.patternStops ∧
    (⟨11, "B", 3⟩ : PatternStopRow) ∈ exDB1.patternStops ∧
    (∃ r ∈ exDB1.routes, r.route_id = "R11") ∧
    (∀ e ∈ findDirectRows exDB1 "A" "B", e.pattern_id ≠ 11) := by
  decide

/-- Witness database for C6's counterexample: a loop pattern in which stop
`A` appears twice (sequences 1 and 3) around `B` (sequence 2). -/
def exDB2 : DB :=
  { routes := [⟨"R1", "R1", "", 3, ""⟩],
    stops := [⟨"A", "Stop A", 0, 0, 0⟩, ⟨"B", "Stop B", 0, 0, 0⟩],
    patterns := [⟨1, "R1", 0, "loop", "A", "A", 3⟩],
    patternStops := [⟨1, "A", 1⟩, ⟨1, "B", 2⟩, ⟨1, "A", 3⟩],
    stopRoutes := [] }

/-- **C6 counterexample.** On the loop pattern of `exDB2`, both the `(A, B)`
search and the `(B, A)` search return an entry referencing the same
pattern 1. -/
theorem direct_route_asymmetry_counterexample :
    (∃ e ∈ findDirectRows exDB2 "A" "B", e.pattern_id = 1) ∧
    ∃ e ∈ findDirectRows exDB2 "B" "A", e.pattern_id = 1 := by
  decide

/-- **C6 (amended).** Provided no stop occurs at two different sequences
within one pattern, an entry returned for `(A, B)` and an entry returned for
`(B, A)` never reference the same pattern. -/
theorem direct_route_asymmetry (db : DB) (A B : String)
    (hinj : ∀ r1 ∈ db.patternStops, ∀ r2 ∈ db.patternStops,
      r1.pattern_id = r2.pattern_id → r1.stop_id = r2.stop_id →
      r1.stop_sequence = r2.stop_sequence)
    (e1 : DirectRow) (he1 : e1 ∈ findDirectRows db A B)
    (e2 : DirectRow) (he2 : e2 ∈ findDirectRows db B A) :
    e1.pattern_id ≠ e2.pattern_id := by
  intro heq
  obtain ⟨ps1, hp1, ps2, hp2, rp, _, r, _, hf1, ht1, hpid1, hlt1, _, _, he1e⟩ :=
    (mem_directCandidates db A B e1).mp (mem_findDirectRows db A B e1 he1)
  obtain ⟨ps1', hp1', ps2', hp2', rp', _, r', _, hf1', ht1', hpid1', hlt1', _, _, he2e⟩ :=
    (mem_directCandidates db B A e2).mp (mem_findDirectRows db B A e2 he2)
  have hid1 : e1.pattern_id = ps1.pattern_id := by rw [he1e]
  have hid2 : e2.pattern_id = ps1'.pattern_id := by rw [he2e]
  have hpp : ps1.pattern_id = ps1'.pattern_id := by rw [← hid1, ← hid2, heq]
  have hA : ps1.stop_sequence = ps2'.stop_sequence := by
    apply hinj ps1 hp1 ps2' hp2'
    · rw [hpid1', hpp]
    · rw [hf1, ht1']
  have hB : ps2.stop_sequence = ps1'.stop_sequence := by
    apply hinj ps2 hp2 ps1' hp1'
    · rw [hpid1, hpp]
    · rw [ht1, hf1']
  omega

/-! ## Transfer search (`GET /api/search/route`, STEP 2)

Model of the backend transfer loop: the per-stop route lists
(`SELECT DISTINCT ... FROM stop_routes JOIN routes`), the `.get` lookups
(`find?` on the rows in stored order), the reachable-stops query, and the
triple nested loop that pushes results and breaks once 5 are found
(equivalent to generating candidates in loop order and taking the
first 5). -/

structure StopRouteInfo where
  route_id : String
  direction_id : Nat
  route_short_name : String
  route_type : Nat
  route_color : String
  deriving DecidableEq, Repr

def routesAtStop (db : DB) (sid : String) : List StopRouteInfo :=
  dedupFirst ((db.stopRoutes.filter (fun sr => sr.stop_id == sid)).flatMap (fun sr =>
    (db.routes.filter (fun r => r.route_id == sr.route_id)).map (fun r =>
      ⟨sr.route_id, sr.direction_id, r.route_short_name, r.route_type, r.route_color⟩)))

/-- `SELECT pattern_id FROM route_patterns WHERE route_id = ? AND
direction_id = ?` followed by `.get` (first row). -/
def findPattern (db : DB) (rid : String) (d : Nat) : Option PatternRec :=
  db.patterns.find? (fun p => p.route_id == rid && p.direction_id == d)

/-- `SELECT stop_sequence FROM pattern_stops WHERE pattern_id = ? AND
stop_id = ?` followed by `.get` (first row). -/
def findSeqRow (db : DB) (pid : Nat) (sid : String) : Option PatternStopRow :=
  db.patternStops.find? (fun ps => ps.pattern_id == pid && ps.stop_id == sid)

structure ReachStop where
  stop_id : String
  stop_sequence : Nat
  stop_name : String
  deriving DecidableEq, Repr

/-- All stops after the given sequence on a pattern, joined to `stops` for
the name. -/
def reachableAfter (db : DB) (pid : Nat) (seq : Nat) : List ReachStop :=
  (db.patternStops.filter (fun ps =>
      ps.pattern_id == pid && decide (seq < ps.stop_sequence))).flatMap (fun ps =>
    (db.stops.filter (fun s => s.stop_id == ps.stop_id)).map (fun s =>
      ⟨ps.stop_id, ps.stop_sequence, s.stop_name⟩))

structure TransferRow where
  transfer_stop_id : String
  transfer_stop_name : String
  r1_route_id : String
  r1_name : String
  r1_type : Nat
  r1_color : String
  r2_route_id : String
  r2_name : String
  r2_type : Nat
  r2_color : String
  deriving DecidableEq, Repr

def transferCandidates (db : DB) (f t : String) : List TransferRow :=
  (routesAtStop db f).flatMap (fun fr =>
    match findPattern db fr.route_id fr.direction_id with
    | none => []
    | some fp =>
      match findSeqRow db fp.pattern_id f with
      | none => []
      | some fsRow =>
        (reachableAfter db fp.pattern_id fsRow.stop_sequence).flatMap (fun stp =>
          (routesAtStop db t).filterMap (fun tr =>
            if tr.route_id == fr.route_id then none
            else
              match findPattern db tr.route_id tr.direction_id with
              | none => none
              | some tp =>
                match findSeqRow db tp.pattern_id stp.stop_id,
                    findSeqRow db tp.pattern_id t with
                | some tsRow, some dsRow =>
                  if tsRow.stop_sequence < dsRow.stop_sequence then
                    some ⟨stp.stop_id, stp.stop_name,
                          fr.route_id, fr.route_short_name, fr.route_type, fr.route_color,
                          tr.route_id, tr.route_short_name, tr.route_type, tr.route_color⟩
                  else none
                | _, _ => none)))

def findTransferRoutes (db : DB) (f t : String) : List TransferRow :=
  (transferCandidates db f t).take 5

theorem findPattern_some (db : DB) (rid : String) (d : Nat) (p : PatternRec)
    (h : findPattern db rid d = some p) :
    p ∈ db.patterns ∧ p.route_id = rid ∧ p.direction_id = d := by
  have hpred := List.find?_some h
  simp only [Bool.and_eq_true, beq_iff_eq] at hpred
  exact ⟨List.mem_of_find?_eq_some h, hpred.1, hpred.2⟩

theorem findSeqRow_some (db : DB) (pid : Nat) (sid : String) (row : PatternStopRow)
    (h : findSeqRow db pid sid = some row) :
    row ∈ db.patternStops ∧ row.pattern_id = pid ∧ row.stop_id = sid := by
  have hpred := List.find?_some h
  simp only [Bool.and_eq_true, beq_iff_eq] at hpred
  exact ⟨List.mem_of_find?_eq_some h, hpred.1, hpred.2⟩

theorem reachableAfter_mem (db : DB) (pid seq : Nat) (stp : ReachStop)
    (h : stp ∈ reachableAfter db pid seq) :
    ∃ ps ∈ db.patternStops, ps.pattern_id = pid ∧ seq < ps.stop_sequence ∧
      stp.stop_id = ps.stop_id ∧ stp.stop_sequence = ps.stop_sequence := by
  simp only [reachableAfter, List.mem_flatMap, List.mem_filter, List.mem_map,
    Bool.and_eq_true, beq_iff_eq, decide_eq_true_eq] at h
  obtain ⟨ps, ⟨hps, hpid, hseq⟩, s, ⟨hs, hsid⟩, rfl⟩ := h
  exact ⟨ps, hps, hpid, hseq, rfl, rfl⟩

/-- **C2.** Every transfer result pairs two distinct route ids; the transfer
stop lies on a pattern of leg 1's route strictly after the origin, and on a
pattern of leg 2's route strictly before the destination. -/
theorem transfer_route_correctness (db : DB) (f t : String) (e : TransferRow)
    (he : e ∈ findTransferRoutes db f t) :
    e.r1_route_id ≠ e.r2_route_id ∧
    (∃ p1 ∈ db.patterns, p1.route_id = e.r1_route_id ∧
      ∃ s0 ∈ db.patternStops, s0.pattern_id = p1.pattern_id ∧ s0.stop_id = f ∧
      ∃ s1 ∈ db.patternStops, s1.pattern_id = p1.pattern_id ∧
        s1.stop_id = e.transfer_stop_id ∧ s0.stop_sequence < s1.stop_sequence) ∧
    (∃ p2 ∈ db.patterns, p2.route_id = e.r2_route_id ∧
      ∃ s2 ∈ db.patternStops, s2.pattern_id = p2.pattern_id ∧
        s2.stop_id = e.transfer_stop_id ∧
      ∃ s3 ∈ db.patternStops, s3.pattern_id = p2.pattern_id ∧ s3.stop_id = t ∧
        s2.stop_sequence < s3.stop_sequence) := by
  have he' : e ∈ transferCandidates db f t := List.take_subset _ _ he
  obtain ⟨fr, hfr, hmem⟩ := List.mem_flatMap.mp he'
  cases hfp : findPattern db fr.route_id fr.direction_id with
  | none => simp [hfp] at hmem
  | some fp =>
  simp only [hfp] at hmem
  cases hfs : findSeqRow db fp.pattern_id f with
  | none => simp [hfs] at hmem
  | some fsRow =>
  simp only [hfs] at hmem
  obtain ⟨stp, hstp, hmem2⟩ := List.mem_flatMap.mp hmem
  obtain ⟨tr, htr, hsome⟩ := List.mem_filterMap.mp hmem2
  split at hsome
  · simp at hsome
  · rename_i hne
    cases htp : findPattern db tr.route_id tr.direction_id with
    | none => simp [htp] at hsome
    | some tp =>
    simp only [htp] at hsome
    cases hts : findSeqRow db tp.pattern_id stp.stop_id with
    | none => simp [hts] at hsome
    | some tsRow =>
    simp only [hts] at hsome
    cases hds : findSeqRow db tp.pattern_id t with
    | none => simp [hds] at hsome
    | some dsRow =>
    simp only [hds] at hsome
    split at hsome
    · rename_i hlt2
      obtain rfl := (Option.some.inj hsome).symm
      obtain ⟨hfp_mem, hfp_rid, _⟩ := findPattern_some db fr.route_id fr.direction_id fp hfp
      obtain ⟨hfs_mem, hfs_pid, hfs_sid⟩ := findSeqRow_some db fp.pattern_id f fsRow hfs
      obtain ⟨ps, hps, hps_pid, hps_gt, hps_sid, hps_seq⟩ :=
        reachableAfter_mem db fp.pattern_id fsRow.stop_sequence stp hstp
      obtain ⟨htp_mem, htp_rid, _⟩ := findPattern_some db tr.route_id tr.direction_id tp htp
      obtain ⟨hts_mem, hts_pid, hts_sid⟩ := findSeqRow_some db tp.pattern_id stp.stop_id tsRow hts
      obtain ⟨hds_mem, hds_pid, hds_sid⟩ := findSeqRow_some db tp.pattern_id t dsRow hds
      refine ⟨?_, ?_, ?_⟩
      · intro hcontra
        exact hne (by simpa using hcontra.symm)
      · exact ⟨fp, hfp_mem, hfp_rid.symm ▸ rfl, fsRow, hfs_mem, hfs_pid, hfs_sid,
          ps, hps, hps_pid, hps_sid.symm, by omega⟩
      · exact ⟨tp, htp_mem, htp_rid.symm ▸ rfl, tsRow, hts_mem, hts_pid, hts_sid,
          dsRow, hds_mem, hds_pid, hds_sid, hlt2⟩
    · simp at hsome

/-! ## Journey planner entry (`GET /api/search/route`)

Input validation and stop resolution happen before any search; the backend
direct query joins through `stop_routes` and caps at 5 rows. -/

def directCandidatesB (db : DB) (f t : String) : List DirectRow :=
  dedupFirst ((db.stopRoutes.filter (fun sr1 => sr1.stop_id == f)).flatMap (fun sr1 =>
    (db.stopRoutes.filter (fun sr2 =>
        sr2.stop_id == t && sr2.route_id == sr1.route_id &&
          sr2.direction_id == sr1.direction_id)).flatMap (fun _ =>
      (db.routes.filter (fun r => r.route_id == sr1.route_id)).flatMap (fun r =>
        (db.patterns.filter (fun rp =>
            rp.route_id == r.route_id && rp.direction_id == sr1.direction_id)).flatMap
          (fun rp =>
            (db.patternStops.filter (fun ps1 =>
                ps1.pattern_id == rp.pattern_id && ps1.stop_id == f)).flatMap (fun ps1 =>
              (db.patternStops.filter (fun ps2 =>
                  ps2.pattern_id == rp.pattern_id && ps2.stop_id == t &&
                    decide (ps1.stop_sequence < ps2.stop_sequence))).map (fun ps2 =>
                (⟨r.route_id, r.route_short_name, r.route_type, r.route_color,
                  rp.pattern_id, rp.direction_id, rp.headsign,
                  ps1.stop_sequence, ps2.stop_sequence⟩ : DirectRow))))))))

def findDirectB (db : DB) (f t : String) : List DirectRow :=
  (sortLt (fun a b => decide (a.to_seq - a.from_seq < b.to_seq - b.from_seq))
    (directCandidatesB db f t)).take 5

inductive PlanResult where
  | invalidInput : PlanResult
  | stopNotFound : String → PlanResult
  | direct : List DirectRow → PlanResult
  | transfer : List TransferRow → PlanResult
  | noRoute : PlanResult
  deriving DecidableEq, Repr

/-- The `GET /api/search/route` handler: reject missing/empty ids (HTTP 400),
resolve both stops (missing one → HTTP 404 naming it), then direct search,
then transfer search, then the "no route" outcome. -/
def planRoute (db : DB) (fromId toId : String) : PlanResult :=
  if fromId == "" || toId == "" then .invalidInput
  else
    match db.stops.find? (fun s => s.stop_id == fromId) with
    | none => .stopNotFound fromId
    | some _ =>
      match db.stops.find? (fun s => s.stop_id == toId) with
      | none => .stopNotFound toId
      | some _ =>
        if (findDirectB db fromId toId).isEmpty then
          if (findTransferRoutes db fromId toId).isEmpty then .noRoute
          else .transfer (findTransferRoutes db fromId toId)
        else .direct (findDirectB db fromId toId)

/-- **C3.** If either requested stop id is absent from the stops table (and
both ids are nonempty), the planner answers `stopNotFound` naming a missing
id — never the "no route" outcome — and it does so independently of the
pattern, pattern-stop and stop-route tables (the check precedes any
search). -/
theorem planner_stop_not_found (db : DB) (fromId toId : String)
    (hf : fromId ≠ "") (ht : toId ≠ "")
    (hmiss : (∀ s ∈ db.stops, s.stop_id ≠ fromId) ∨
      (∀ s ∈ db.stops, s.stop_id ≠ toId)) :
    ∃ m, planRoute db fromId toId = PlanResult.stopNotFound m ∧
      (∀ s ∈ db.stops, s.stop_id ≠ m) ∧ (m = fromId ∨ m = toId) ∧
      planRoute db fromId toId ≠ PlanResult.noRoute ∧
      ∀ pats pstops srs,
        planRoute ⟨db.routes, db.stops, pats, pstops, srs⟩ fromId toId
          = PlanResult.stopNotFound m := by
  have hif : (fromId == "" || toId == "") = false := by
    simp [hf, ht]
  cases hfind : db.stops.find? (fun s => s.stop_id == fromId) with
  | none =>
    have hmissf : ∀ s ∈ db.stops, s.stop_id ≠ fromId := by
      intro s hs
      have := List.find?_eq_none.mp hfind s hs
      simpa using this
    refine ⟨fromId, ?_, hmissf, Or.inl rfl, ?_, ?_⟩
    · simp only [planRoute, hif, Bool.false_eq_true, if_false, hfind]
    · simp only [planRoute, hif, Bool.false_eq_true, if_false, hfind]
      intro hcontra
      cases hcontra
    · intro pats pstops srs
      simp only [planRoute, hif, Bool.false_eq_true, if_false]
      rw [show (⟨db.routes, db.stops, pats, pstops, srs⟩ : DB).stops = db.stops from rfl,
        hfind]
  | some s0 =>
    have hs0 := List.find?_some hfind
    have hs0mem := List.mem_of_find?_eq_some hfind
    have hmisst : ∀ s ∈ db.stops, s.stop_id ≠ toId := by
      rcases hmiss with hmf | hmt
      · exact absurd (by simpa using hs0) (hmf s0 hs0mem)
      · exact hmt
    have hfindt : db.stops.find? (fun s => s.stop_id == toId) = none := by
      rw [List.find?_eq_none]
      intro s hs
      simpa using hmisst s hs
    refine ⟨toId, ?_, hmisst, Or.inr rfl, ?_, ?_⟩
    · simp only [planRoute, hif, Bool.false_eq_true, if_false, hfind, hfindt]
    · simp only [planRoute, hif, Bool.false_eq_true, if_false, hfind, hfindt]
      intro hcontra
      cases hcontra
    · intro pats pstops srs
      simp only [planRoute, hif, Bool.false_eq_true, if_false]
      rw [show (⟨db.routes, db.stops, pats, pstops, srs⟩ : DB).stops = db.stops from rfl,
        hfind, hfindt]

/-! ## Stop search (`GET /api/search/stops` and offline `searchStops`)

The query is trimmed, lowercased and split on whitespace; the SQL pattern
`'%' + words.join('%') + '%'` matches a name iff the tokens occur in it in
order with arbitrary gaps, which is decided by matching each token at its
leftmost occurrence (complete for this pattern class, since a later match
leaves a suffix of the remainder a leftmost match leaves). -/

def isPrefixList : List Char → List Char → Bool
  | [], _ => true
  | _ :: _, [] => false
  | a :: as, b :: bs => a == b && isPrefixList as bs

/-- Remainder of `s` after the leftmost occurrence of `w`, if any. -/
def dropAfter (w : List Char) : List Char → Option (List Char)
  | [] => if w.isEmpty then some [] else none
  | c :: s =>
    if isPrefixList w (c :: s) then some ((c :: s).drop w.length)
    else dropAfter w s

/-- SQL `LIKE '%' + tokens.join('%') + '%'` on an already-lowercased name. -/
def likeTokens : List (List Char) → List Char → Bool
  | [], _ => true
  | w :: ws, s =>
    match dropAfter w s with
    | none => false
    | some rest => likeTokens ws rest

/-- JavaScript `String.prototype.trim`. -/
def trimChars (l : List Char) : List Char :=
  ((l.dropWhile Char.isWhitespace).reverse.dropWhile Char.isWhitespace).reverse

/-- Split at every whitespace character (runs produce empty chunks). -/
def splitChunks : List Char → List (List Char)
  | [] => [[]]
  | c :: cs =>
    match splitChunks cs with
    | [] => [[c]]
    | w :: ws => if c.isWhitespace then [] :: w :: ws else (c :: w) :: ws

/-- JavaScript `split(/\s+/)` on a trimmed string: whitespace runs separate
tokens, and splitting `""` yields `[""]`, like JavaScript. -/
def splitWs (l : List Char) : List (List Char) :=
  match (splitChunks l).filter (fun w => !w.isEmpty) with
  | [] => [[]]
  | r => r

def lowerName (s : StopRec) : List Char := s.stop_name.toList.map Char.toLower

def queryWords (q : String) : List (List Char) :=
  splitWs ((trimChars q.toList).map Char.toLower)

/-- The `ORDER BY CASE` tier: 1 if the lowercased name contains the first
token, 2 if it matches the full fuzzy pattern, else 3. -/
def stopTier (words : List (List Char)) (s : StopRec) : Nat :=
  if likeTokens [words.headD []] (lowerName s) then 1
  else if likeTokens words (lowerName s) then 2
  else 3

/-- Strict lexicographic order on `(tier, name length)` sort keys. -/
def pairLtBool (p q : ℕ × ℕ) : Bool :=
  decide (p.1 < q.1) || (p.1 == q.1 && decide (p.2 < q.2))

def tierLenLt (words : List (List Char)) (a b : StopRec) : Bool :=
  pairLtBool (stopTier words a, a.stop_name.length) (stopTier words b, b.stop_name.length)

/-- Backend stop search: reject queries shorter than 2 characters, filter by
the fuzzy pattern, order by `(tier, LENGTH(stop_name))`, cap at 20; if that
is empty and there are several tokens, fall back to matching the first token
alone ordered by name length. -/
def searchStopsB (stops : List StopRec) (q : String) : Option (List StopRec) :=
  if q.length < 2 then none
  else
    let words := queryWords q
    let matched := stops.filter (fun s => likeTokens words (lowerName s))
    let primary := (sortLt (tierLenLt words) matched).take 20
    if primary.isEmpty && decide (1 < words.length) then
      some ((sortLt (fun a b => decide (a.stop_name.length < b.stop_name.length))
        (stops.filter (fun s => likeTokens [words.headD []] (lowerName s)))).take 20)
    else some primary

/-- Offline stop search (`db.ts`): no minimum-length check, no tier `CASE`,
no fallback; filter by the fuzzy pattern, order by name length, cap
at 20. -/
def searchStopsF (stops : List StopRec) (q : String) : List StopRec :=
  (sortLt (fun a b => decide (a.stop_name.length < b.stop_name.length))
    (stops.filter (fun s => likeTokens (queryWords q) (lowerName s)))).take 20

theorem pairLtBool_asymm (p q : ℕ × ℕ) (h : pairLtBool p q = true) :
    pairLtBool q p = false := by
  rw [← Bool.not_eq_true]
  simp only [pairLtBool, Bool.or_eq_true, Bool.and_eq_true, beq_iff_eq,
    decide_eq_true_eq] at h ⊢
  omega

theorem pairLtBool_negtrans (p q r : ℕ × ℕ)
    (h1 : pairLtBool q p = false) (h2 : pairLtBool r q = false) :
    pairLtBool r p = false := by
  rw [← Bool.not_eq_true] at h1 h2 ⊢
  simp only [pairLtBool, Bool.or_eq_true, Bool.and_eq_true, beq_iff_eq,
    decide_eq_true_eq] at h1 h2 ⊢
  omega

theorem dropAfter_nil (s : List Char) : dropAfter [] s = some s := by
  cases s <;> simp [dropAfter, isPrefixList, List.isEmpty]

/-- A name matching the full fuzzy pattern contains the first token. -/
theorem likeTokens_head (ws : List (List Char)) (s : List Char)
    (h : likeTokens ws s = true) : likeTokens [ws.headD []] s = true := by
  cases ws with
  | nil => simp [likeTokens, dropAfter_nil]
  | cons w ws =>
    simp only [likeTokens, List.headD_cons] at h ⊢
    cases hda : dropAfter w s with
    | none => rw [hda] at h; simp at h
    | some rest => simp [likeTokens]

theorem matched_tier_one (words : List (List Char)) (s : StopRec)
    (h : likeTokens words (lowerName s) = true) : stopTier words s = 1 := by
  rw [stopTier, if_pos (likeTokens_head words (lowerName s) h)]

/-- **C8 (amended).** For every accepted query, the returned stops are
ordered by ascending name length (the tier `CASE` is vacuous on the primary
path because every fuzzy match contains the first token), and at most 20 are
returned. -/
theorem stop_search_ordering (stops : List StopRec) (q : String)
    (out : List StopRec) (h : searchStopsB stops q = some out) :
    out.length ≤ 20 ∧
    (out.map (fun s => s.stop_name.length)).Pairwise (· ≤ ·) := by
  rw [searchStopsB] at h
  split at h
  · simp at h
  · simp only at h
    split at h
    · obtain rfl := Option.some.inj h
      constructor
      · exact List.length_take_le _ _
      · have hp := sortLt_key_pairwise (fun s : StopRec => s.stop_name.length)
          (stops.filter (fun s => likeTokens [(queryWords q).headD []] (lowerName s)))
        have hm : ((sortLt (fun a b =>
            decide (a.stop_name.length < b.stop_name.length))
            (stops.filter (fun s =>
              likeTokens [(queryWords q).headD []] (lowerName s)))).map
            (fun s => s.stop_name.length)).Pairwise (· ≤ ·) :=
          List.pairwise_map.mpr hp
        exact hm.sublist ((List.take_sublist _ _).map _)
    · obtain rfl := Option.some.inj h
      constructor
      · exact List.length_take_le _ _
      · have hsorted := sortLt_pairwise (tierLenLt (queryWords q))
          (fun x y => pairLtBool_asymm _ _)
          (fun x y z => pairLtBool_negtrans _ _ _)
          (stops.filter (fun s => likeTokens (queryWords q) (lowerName s)))
        have hlen : (sortLt (tierLenLt (queryWords q))
            (stops.filter (fun s => likeTokens (queryWords q) (lowerName s)))).Pairwise
            (fun a b => a.stop_name.length ≤ b.stop_name.length) := by
          refine List.Pairwise.imp_of_mem ?_ hsorted
          intro a b ha hb hab
          have hamem : a ∈ stops.filter
              (fun s => likeTokens (queryWords q) (lowerName s)) :=
            (mem_sortLt _ _ _).mp ha
          have hbmem : b ∈ stops.filter
              (fun s => likeTokens (queryWords q) (lowerName s)) :=
            (mem_sortLt _ _ _).mp hb
          have hta : stopTier (queryWords q) a = 1 :=
            matched_tier_one _ _ ((List.mem_filter.mp hamem).2)
          have htb : stopTier (queryWords q) b = 1 :=
            matched_tier_one _ _ ((List.mem_filter.mp hbmem).2)
          rw [← Bool.not_eq_true] at hab
          simp only [tierLenLt, pairLtBool, Bool.or_eq_true, Bool.and_eq_true,
            beq_iff_eq, decide_eq_true_eq, hta, htb, lt_self_iff_false, false_or,
            true_and, not_lt] at hab
          exact hab
        exact (List.pairwise_map.mpr hlen).sublist ((List.take_sublist _ _).map _)

/-- Stops exhibiting the C8 counterexample: `"a go ld"` does not start with
the first token `"go"` but is shorter; `"goxxxxld"` starts with it but is
longer. -/
def exStopsC8 : List StopRec :=
  [⟨"S1", "a go ld", 0, 0, 0⟩, ⟨"S2", "goxxxxld", 0, 0, 0⟩]

/-- **C8 counterexample.** For query `"go ld"`, the code returns the
non-prefix name `"a go ld"` before the prefix name `"goxxxxld"`: ordering is
by name length alone, not by the claimed starts-with-first-token tier. -/
theorem stop_search_ordering_counterexample :
    searchStopsB exStopsC8 "go ld" =
      some [⟨"S1", "a go ld", 0, 0, 0⟩, ⟨"S2", "goxxxxld", 0, 0, 0⟩] ∧
    isPrefixList "go".toList (lowerName ⟨"S2", "goxxxxld", 0, 0, 0⟩) = true ∧
    isPrefixList "go".toList (lowerName ⟨"S1", "a go ld", 0, 0, 0⟩) = false := by
  decide

/-- One-stop table on which the offline search answers a one-character
query. -/
def exStopsC7 : List StopRec := [⟨"S1", "golden stop", 0, 0, 0⟩]

/-- **C7 counterexample.** The HTTP stop search rejects the one-character
query `"g"` while the offline implementation accepts it and returns a
match: the two contracts are not identical. -/
theorem offline_contract_counterexample :
    searchStopsB exStopsC7 "g" = none ∧
    searchStopsF exStopsC7 "g" = [⟨"S1", "golden stop", 0, 0, 0⟩] := by
  decide

/-- **C7 (amended).** The stop-search contracts differ between the two
implementations: the HTTP layer rejects every query shorter than 2
characters, while the offline search accepts such queries and can return
matches. -/
theorem stop_search_min_length_divergence :
    (∀ (stops : List StopRec) (q : String), q.length < 2 →
      searchStopsB stops q = none) ∧
    searchStopsF exStopsC7 "g" ≠ [] := by
  constructor
  · intro stops q hq
    simp [searchStopsB, hq]
  · decide

/-! ## Nearby stops (`GET /api/search/nearby`)

Coordinates and the derived quantities are exact rationals; `cosLat` is the
value `Math.cos(latitude * π / 180)` computed by the handler, passed as a
parameter since it is the one transcendental input.  The reported
`distance_meters` is `√(scaledD2) · 1000` rounded; the model carries the
squared scaled distance (in km²), a strictly monotone stand-in, so every
ordering statement about the reported distance transfers. -/

def inBox (qlat qlon latD lonD : ℚ) (s : StopRec) : Bool :=
  decide (qlat - latD ≤ s.stop_lat) && decide (s.stop_lat ≤ qlat + latD) &&
    decide (qlon - lonD ≤ s.stop_lon) && decide (s.stop_lon ≤ qlon + lonD)

/-- The `ORDER BY` expression: squared coordinate distance in raw degrees,
longitude unscaled. -/
def rawD2 (qlat qlon : ℚ) (s : StopRec) : ℚ :=
  (s.stop_lat - qlat) * (s.stop_lat - qlat) + (s.stop_lon - qlon) * (s.stop_lon - qlon)

/-- Square of the reported distance in km: latitude degrees × 111,
longitude degrees × 111 × cos(latitude). -/
def scaledD2 (qlat qlon cosLat : ℚ) (s : StopRec) : ℚ :=
  ((s.stop_lat - qlat) * 111) * ((s.stop_lat - qlat) * 111) +
    ((s.stop_lon - qlon) * 111 * cosLat) * ((s.stop_lon - qlon) * 111 * cosLat)

/-- The nearby handler: bounding-box filter, order by `rawD2`, `LIMIT 20`,
then attach the reported distance. -/
def nearbyStops (stops : List StopRec) (qlat qlon radiusKm cosLat : ℚ) :
    List (StopRec × ℚ) :=
  ((sortLt (fun a b => decide (rawD2 qlat qlon a < rawD2 qlat qlon b))
      (stops.filter (inBox qlat qlon (radiusKm / 111) (radiusKm / (111 * cosLat))))).take
    20).map (fun s => (s, scaledD2 qlat qlon cosLat s))

/-- **C9 (amended).** Only stops in the equirectangular bounding box are
returned, at most 20 of them, each paired with the cos-scaled reported
distance — but the ordering is by ascending *unscaled* squared coordinate
distance, not by the reported distance. -/
theorem nearby_stops_spec (stops : List StopRec) (qlat qlon radiusKm cosLat : ℚ) :
    (nearbyStops stops qlat qlon radiusKm cosLat).length ≤ 20 ∧
    (∀ p ∈ nearbyStops stops qlat qlon radiusKm cosLat,
      inBox qlat qlon (radiusKm / 111) (radiusKm / (111 * cosLat)) p.1 = true ∧
      p.2 = scaledD2 qlat qlon cosLat p.1) ∧
    ((nearbyStops stops qlat qlon radiusKm cosLat).map
      (fun p => rawD2 qlat qlon p.1)).Pairwise (· ≤ ·) := by
  refine ⟨?_, ?_, ?_⟩
  · rw [nearbyStops, List.length_map]
    exact List.length_take_le _ _
  · intro p hp
    obtain ⟨s, hs, rfl⟩ := List.mem_map.mp hp
    have hs' : s ∈ stops.filter
        (inBox qlat qlon (radiusKm / 111) (radiusKm / (111 * cosLat))) :=
      (mem_sortLt _ _ _).mp (List.take_subset _ _ hs)
    exact ⟨(List.mem_filter.mp hs').2, rfl⟩
  · have hp := sortLt_key_pairwise (rawD2 qlat qlon)
      (stops.filter (inBox qlat qlon (radiusKm / 111) (radiusKm / (111 * cosLat))))
    have hm : ((sortLt (fun a b => decide (rawD2 qlat qlon a < rawD2 qlat qlon b))
        (stops.filter (inBox qlat qlon (radiusKm / 111)
          (radiusKm / (111 * cosLat))))).map (rawD2 qlat qlon)).Pairwise (· ≤ ·) :=
      List.pairwise_map.mpr hp
    have hsub : ((nearbyStops stops qlat qlon radiusKm cosLat).map
        (fun p => rawD2 qlat qlon p.1)).Sublist
        ((sortLt (fun a b => decide (rawD2 qlat qlon a < rawD2 qlat qlon b))
          (stops.filter (inBox qlat qlon (radiusKm / 111)
            (radiusKm / (111 * cosLat))))).map (rawD2 qlat qlon)) := by
      rw [nearbyStops, List.map_map]
      exact (List.take_sublist _ _).map _
    exact hm.sublist hsub

/-- Stops exhibiting the C9 counterexample at Dubai's latitude
(`cosLat = 453/500 ≈ cos 25°`): stop `A` is offset 0.001° in longitude,
stop `B` 0.00095° in latitude. -/
def exStopsC9 : List StopRec :=
  [⟨"A", "Stop A", 25, 55 + 1/1000, 0⟩,
   ⟨"B", "Stop B", 25 + 19/20000, 55, 0⟩]

/-- **C9 counterexample.** The handler returns `B` before `A` (its unscaled
squared degree distance is smaller) although `A`'s reported cos-scaled
distance is strictly smaller: the list is not ordered by the reported
distance. -/
theorem nearby_stops_order_counterexample :
    (nearbyStops exStopsC9 25 55 (1/2) (453/500)).map (fun p => p.1.stop_id)
      = ["B", "A"] ∧
    (nearbyStops exStopsC9 25 55 (1/2) (453/500)).map (fun p => p.2)
      = [scaledD2 25 55 (453/500) ⟨"B", "Stop B", 25 + 19/20000, 55, 0⟩,
         scaledD2 25 55 (453/500) ⟨"A", "Stop A", 25, 55 + 1/1000, 0⟩] ∧
    scaledD2 25 55 (453/500) ⟨"A", "Stop A", 25, 55 + 1/1000, 0⟩ <
      scaledD2 25 55 (453/500) ⟨"B", "Stop B", 25 + 19/20000, 55, 0⟩ := by
  refine ⟨?_, ?_, ?_⟩
  · norm_num [nearbyStops, exStopsC9, List.filter_cons, sortLt, insertLt, inBox,
      rawD2, Bool.and_eq_true, decide_eq_true_eq]
  · norm_num [nearbyStops, exStopsC9, List.filter_cons, sortLt, insertLt, inBox,
      rawD2, Bool.and_eq_true, decide_eq_true_eq]
  · simp only [scaledD2]
    norm_num

/-! ## Bus listing (`GET /api/bus` and offline `getAllBuses`)

`ORDER BY CASE WHEN route_short_name GLOB '[0-9]*' THEN
CAST(route_short_name AS INTEGER) ELSE 999999 END, route_short_name`. -/

def digitStart (s : String) : Bool :=
  match s.toList with
  | [] => false
  | c :: _ => c.isDigit

/-- SQLite `CAST(text AS INTEGER)`: value of the leading digit run. -/
def leadingNatAux : List Char → Nat → Nat
  | [], acc => acc
  | c :: cs, acc => if c.isDigit then leadingNatAux cs (acc * 10 + (c.toNat - 48)) else acc

def leadingNat (s : String) : Nat := leadingNatAux s.toList 0

def busKeyN (r : RouteRec) : Nat :=
  if digitStart r.route_short_name then leadingNat r.route_short_name else 999999

def busLt (a b : RouteRec) : Bool :=
  decide (busKeyN a < busKeyN b) ||
    (busKeyN a == busKeyN b && decide (a.route_short_name < b.route_short_name))

def getAllBuses (routes : List RouteRec) : List RouteRec :=
  sortLt busLt (routes.filter (fun r => r.route_type == 3))

theorem busLt_asymm (a b : RouteRec) (h : busLt a b = true) : busLt b a = false := by
  rw [← Bool.not_eq_true]
  simp only [busLt, Bool.or_eq_true, Bool.and_eq_true, beq_iff_eq,
    decide_eq_true_eq] at h ⊢
  rcases h with h | ⟨he, hs⟩ <;> rintro (h' | ⟨he', hs'⟩)
  · omega
  · omega
  · omega
  · exact absurd hs' (not_lt.mpr (le_of_lt hs))

theorem busLt_negtrans (a b c : RouteRec)
    (h1 : busLt b a = false) (h2 : busLt c b = false) : busLt c a = false := by
  rw [← Bool.not_eq_true] at h1 h2 ⊢
  simp only [busLt, Bool.or_eq_true, Bool.and_eq_true, beq_iff_eq,
    decide_eq_true_eq, not_or, not_and, not_lt] at h1 h2 ⊢
  obtain ⟨h1k, h1s⟩ := h1
  obtain ⟨h2k, h2s⟩ := h2
  refine ⟨le_trans h1k h2k, fun hke => ?_⟩
  have hba : busKeyN b = busKeyN a := by omega
  have hcb : busKeyN c = busKeyN b := by omega
  exact le_trans (h1s hba) (h2s hcb)

/-- **C10 (amended).** The bus listing returns exactly the bus-type routes,
sorted by the key `(CAST value if the short name starts with a digit, else
999999; then short-name text)`.  Digit-prefixed names whose numeric value
reaches 999999 can therefore sort after non-digit names, so the claimed
strict "digits before letters" split only holds below that sentinel. -/
theorem all_buses_spec (routes : List RouteRec) :
    (∀ r, r ∈ getAllBuses routes ↔ r ∈ routes ∧ r.route_type = 3) ∧
    (getAllBuses routes).Pairwise (fun a b =>
      busKeyN a < busKeyN b ∨
        (busKeyN a = busKeyN b ∧ a.route_short_name ≤ b.route_short_name)) := by
  constructor
  · intro r
    rw [getAllBuses, mem_sortLt, List.mem_filter]
    simp
  · have hsorted := sortLt_pairwise busLt
      (fun x y => busLt_asymm x y) (fun x y z => busLt_negtrans x y z)
      (routes.filter (fun r => r.route_type == 3))
    refine hsorted.imp ?_
    intro a b hab
    rw [← Bool.not_eq_true] at hab
    simp only [busLt, Bool.or_eq_true, Bool.and_eq_true, beq_iff_eq,
      decide_eq_true_eq, not_or, not_and, not_lt] at hab
    obtain ⟨hk, hs⟩ := hab
    rcases Nat.lt_or_ge (busKeyN a) (busKeyN b) with hlt | hge
    · exact Or.inl hlt
    · have he : busKeyN a = busKeyN b := le_antisymm hk hge
      exact Or.inr ⟨he, hs he.symm⟩

/-- Routes exhibiting the C10 counterexample: short name `"1000000"` casts
above the 999999 sentinel used for non-digit names. -/
def exRoutesC10 : List RouteRec :=
  [⟨"RA", "1000000", "", 3, ""⟩, ⟨"RB", "X1", "", 3, ""⟩]

/-- **C10 counterexample.** The digit-prefixed route `"1000000"` is listed
*after* the non-digit route `"X1"`, contradicting the claim that every
digit-prefixed short name precedes every non-digit one. -/
theorem all_buses_order_counterexample :
    getAllBuses exRoutesC10
      = [⟨"RB", "X1", "", 3, ""⟩, ⟨"RA", "1000000", "", 3, ""⟩] ∧
    digitStart "1000000" = true ∧ digitStart "X1" = false := by
  decide

/-! ## Concrete witnesses

A three-stop network with a single transfer at `X`, and a small feed for
exercising the builder. -/

def exDB3 : DB :=
  { routes := [⟨"R1", "R1", "", 3, ""⟩, ⟨"R2", "R2", "", 3, ""⟩],
    stops := [⟨"A", "Stop A", 0, 0, 0⟩, ⟨"X", "Stop X", 0, 0, 0⟩,
      ⟨"B", "Stop B", 0, 0, 0⟩],
    patterns := [⟨1, "R1", 0, "to X", "A", "X", 2⟩, ⟨2, "R2", 0, "to B", "X", "B", 2⟩],
    patternStops := [⟨1, "A", 1⟩, ⟨1, "X", 2⟩, ⟨2, "X", 1⟩, ⟨2, "B", 2⟩],
    stopRoutes := [⟨"A", "R1", 0⟩, ⟨"X", "R1", 0⟩, ⟨"X", "R2", 0⟩, ⟨"B", "R2", 0⟩] }

theorem direct_route_correctness_witness :
    ∃ e ∈ findDirectRows exDB3 "A" "X", e.pattern_id = 1 ∧ stopsBetween e = 1 :=
  direct_route_correctness exDB3 ⟨1, "R1", 0, "to X", "A", "X", 2⟩ "A" "X"
    ⟨"R1", "R1", "", 3, ""⟩ 1 2 (by decide) (by decide) rfl (by decide) (by decide)
    (by decide) (by decide)

def exTransferRow : TransferRow :=
  ⟨"X", "Stop X", "R1", "R1", 3, "", "R2", "R2", 3, ""⟩

theorem transfer_route_correctness_witness :
    exTransferRow ∈ findTransferRoutes exDB3 "A" "B" ∧
    (exTransferRow.r1_route_id ≠ exTransferRow.r2_route_id ∧
     (∃ p1 ∈ exDB3.patterns, p1.route_id = exTransferRow.r1_route_id ∧
       ∃ s0 ∈ exDB3.patternStops, s0.pattern_id = p1.pattern_id ∧ s0.stop_id = "A" ∧
       ∃ s1 ∈ exDB3.patternStops, s1.pattern_id = p1.pattern_id ∧
         s1.stop_id = exTransferRow.transfer_stop_id ∧
         s0.stop_sequence < s1.stop_sequence) ∧
     (∃ p2 ∈ exDB3.patterns, p2.route_id = exTransferRow.r2_route_id ∧
       ∃ s2 ∈ exDB3.patternStops, s2.pattern_id = p2.pattern_id ∧
         s2.stop_id = exTransferRow.transfer_stop_id ∧
       ∃ s3 ∈ exDB3.patternStops, s3.pattern_id = p2.pattern_id ∧ s3.stop_id = "B" ∧
         s2.stop_sequence < s3.stop_sequence)) :=
  ⟨by decide, transfer_route_correctness exDB3 "A" "B" exTransferRow (by decide)⟩

theorem planner_stop_not_found_witness :
    ∃ m, planRoute exDB3 "ZZZ" "B" = PlanResult.stopNotFound m ∧
      (∀ s ∈ exDB3.stops, s.stop_id ≠ m) ∧ (m = "ZZZ" ∨ m = "B") ∧
      planRoute exDB3 "ZZZ" "B" ≠ PlanResult.noRoute ∧
      ∀ pats pstops srs,
        planRoute ⟨exDB3.routes, exDB3.stops, pats, pstops, srs⟩ "ZZZ" "B"
          = PlanResult.stopNotFound m :=
  planner_stop_not_found exDB3 "ZZZ" "B" (by decide) (by decide) (Or.inl (by decide))

def exTrips : List Trip := [⟨"T1", "R1", 0, "to S2"⟩, ⟨"T2", "R1", 0, "dup"⟩]

def exStopTimes : List StopTime := [⟨"T1", "S2", 2⟩, ⟨"T1", "S1", 1⟩]

def exBuildOut : BuildOut :=
  ⟨[⟨1, "R1", 0, "to S2", "S1", "S2", 2⟩],
   [⟨1, "S1", 1⟩, ⟨1, "S2", 2⟩],
   [⟨"S1", "R1", 0⟩, ⟨"S2", "R1", 0⟩]⟩

theorem build_pattern_invariant_witness :
    ((exBuildOut.patternStops.filter (fun r => r.pattern_id == 1)).map
        (fun r => r.stop_sequence)).Pairwise (· < ·) ∧
    (exBuildOut.patternStops.filter (fun r => r.pattern_id == 1)).length = 2 ∧
    1 ≤ 2 ∧
    ((exBuildOut.patternStops.filter (fun r => r.pattern_id == 1)).head?.map
        (fun r => r.stop_id)) = some "S1" ∧
    ((exBuildOut.patternStops.filter (fun r => r.pattern_id == 1)).getLast?.map
        (fun r => r.stop_id)) = some "S2" :=
  build_pattern_invariant exTrips exStopTimes exBuildOut (by decide)
    ⟨1, "R1", 0, "to S2", "S1", "S2", 2⟩ (by decide)

theorem build_stop_route_index_witness :
    exBuildOut.stopRoutes.Nodup ∧
    ((⟨"S1", "R1", 0⟩ : StopRouteRow) ∈ exBuildOut.stopRoutes ↔
      ∃ p ∈ exBuildOut.patterns, p.route_id = "R1" ∧ p.direction_id = 0 ∧
        ∃ row ∈ exBuildOut.patternStops, row.pattern_id = p.pattern_id ∧
          row.stop_id = "S1") :=
  ⟨(build_stop_route_index exTrips exStopTimes exBuildOut (by decide)).1,
   (build_stop_route_index exTrips exStopTimes exBuildOut (by decide)).2 "S1" "R1" 0⟩

/-- One route with its two opposite-direction patterns, for the asymmetry
witness. -/
def exDB4 : DB :=
  { routes := [⟨"R1", "R1", "", 3, ""⟩],
    stops := [⟨"A", "Stop A", 0, 0, 0⟩, ⟨"B", "Stop B", 0, 0, 0⟩],
    patterns := [⟨1, "R1", 0, "fwd", "A", "B", 2⟩, ⟨2, "R1", 1, "back", "B", "A", 2⟩],
    patternStops := [⟨1, "A", 1⟩, ⟨1, "B", 2⟩, ⟨2, "B", 1⟩, ⟨2, "A", 2⟩],
    stopRoutes := [] }

theorem direct_route_asymmetry_witness :
    (⟨"R1", "R1", 3, "", 1, 0, "fwd", 1, 2⟩ : DirectRow).pattern_id ≠
      (⟨"R1", "R1", 3, "", 2, 1, "back", 1, 2⟩ : DirectRow).pattern_id :=
  direct_route_asymmetry exDB4 "A" "B" (by decide)
    ⟨"R1", "R1", 3, "", 1, 0, "fwd", 1, 2⟩ (by decide)
    ⟨"R1", "R1", 3, "", 2, 1, "back", 1, 2⟩ (by decide)

theorem stop_search_min_length_divergence_witness :
    searchStopsB exStopsC7 "g" = none ∧ searchStopsF exStopsC7 "g" ≠ [] :=
  ⟨stop_search_min_length_divergence.1 exStopsC7 "g" (by decide),
   stop_search_min_length_divergence.2⟩

theorem stop_search_ordering_witness :
    ([⟨"S1", "a go ld", 0, 0, 0⟩, ⟨"S2", "goxxxxld", 0, 0, 0⟩] : List StopRec).length
      ≤ 20 ∧
    (([⟨"S1", "a go ld", 0, 0, 0⟩, ⟨"S2", "goxxxxld", 0, 0, 0⟩] : List StopRec).map
      (fun s => s.stop_name.length)).Pairwise (· ≤ ·) :=
  stop_search_ordering exStopsC8 "go ld"
    [⟨"S1", "a go ld", 0, 0, 0⟩, ⟨"S2", "goxxxxld", 0, 0, 0⟩] (by decide)

theorem nearby_stops_spec_witness :
    (nearbyStops exStopsC9 25 55 (1/2) (453/500)).length ≤ 20 ∧
    ((nearbyStops exStopsC9 25 55 (1/2) (453/500)).map
      (fun p => rawD2 25 55 p.1)).Pairwise (· ≤ ·) :=
  ⟨(nearby_stops_spec exStopsC9 25 55 (1/2) (453/500)).1,
   (nearby_stops_spec exStopsC9 25 55 (1/2) (453/500)).2.2⟩

theorem all_buses_spec_witness :
    ((⟨"RA", "1000000", "", 3, ""⟩ : RouteRec) ∈ getAllBuses exRoutesC10 ↔
      (⟨"RA", "1000000", "", 3, ""⟩ : RouteRec) ∈ exRoutesC10 ∧
        (⟨"RA", "1000000", "", 3, ""⟩ : RouteRec).route_type = 3) ∧
    (getAllBuses exRoutesC10).Pairwise (fun a b =>
      busKeyN a < busKeyN b ∨
        (busKeyN a = busKeyN b ∧ a.route_short_name ≤ b.route_short_name)) :=
  ⟨(all_buses_spec exRoutesC10).1 _, (all_buses_spec exRoutesC10).2⟩

end BusDubai
